import Mathlib

set_option maxRecDepth 8000
set_option maxHeartbeats 1000000

/- Shallow embedding of src/main.go (package main of the proxyScrape
   repository).  Go strings are modelled as List Char and raw bytes as Nat;
   all definitions are executable. -/

/-- Go strings.Split with a one-character separator: splits at every
occurrence of sep and keeps empty fields, so the result always has one
more entry than the number of separators. -/
def splitOnChar (sep : Char) : List Char → List (List Char)
  | [] => [[]]
  | c :: cs =>
    let r := splitOnChar sep cs
    if c = sep then [] :: r
    else
      match r with
      | [] => [[c]]
      | h :: t => (c :: h) :: t

/-- ASCII digit test, used by the Atoi model and the digit-run scanner. -/
def isDigitCh (c : Char) : Bool :=
  decide (48 ≤ c.toNat ∧ c.toNat ≤ 57)

/-- Accumulator loop reading decimal digits; fails on any non-digit. -/
def digitsAux : List Char → Nat → Option Nat
  | [], acc => some acc
  | c :: cs, acc =>
    if isDigitCh c then digitsAux cs (10 * acc + (c.toNat - 48)) else none

/-- Value of a non-empty all-digit string, none otherwise. -/
def digitsVal (s : List Char) : Option Nat :=
  match s with
  | [] => none
  | _ :: _ => digitsAux s 0

/-- Go strconv.Atoi: an optional single sign followed by at least one
decimal digit, nothing else.  Go additionally reports an overflow error for
values outside the 64-bit range; the embedding returns the unbounded value
instead, which every caller in this file rejects just the same, since the
callers only accept values below 65536. -/
def atoi (s : List Char) : Option Int :=
  match s with
  | '+' :: rest => (digitsVal rest).map fun n => (n : Int)
  | '-' :: rest => (digitsVal rest).map fun n => -(n : Int)
  | _ => (digitsVal s).map fun n => (n : Int)

/-- Body of the per-octet loop inside isValidIP (src/main.go lines 142-147):
strconv.Atoi must succeed and the value must lie in [0, 255]. -/
def octetOk (part : List Char) : Bool :=
  match atoi part with
  | some n => decide (0 ≤ n ∧ n ≤ 255)
  | none => false

/-- isValidIP from src/main.go lines 136-149: split on dots, require exactly
four parts, and check every part with the octet rule. -/
def isValidIP (ip : List Char) : Bool :=
  let parts := splitOnChar '.' ip
  if parts.length ≠ 4 then false
  else parts.all octetOk

theorem octetOk_iff (p : List Char) :
    octetOk p = true ↔ ∃ n : Int, atoi p = some n ∧ 0 ≤ n ∧ n ≤ 255 := by
  cases h : atoi p <;> simp [octetOk, h]

/-- C6: isValidIP accepts exactly the strings that split on dots into four
parts, each of which Atoi parses to an integer in [0, 255]; any other
number of parts, a non-numeric part, or an out-of-range part is rejected. -/
theorem isValidIP_characterisation (s : List Char) :
    isValidIP s = true ↔
      ((splitOnChar '.' s).length = 4 ∧
        ∀ p ∈ splitOnChar '.' s, ∃ n : Int, atoi p = some n ∧ 0 ≤ n ∧ n ≤ 255) := by
  unfold isValidIP
  by_cases hl : (splitOnChar '.' s).length = 4
  · simp [hl, List.all_eq_true, octetOk_iff]
  · simp [hl]

/-- Helper for Go strings.HasPrefix and strings.TrimPrefix: if pat is an
initial segment of s, returns the remainder after it. -/
def dropMatched : List Char → List Char → Option (List Char)
  | [], s => some s
  | _ :: _, [] => none
  | p :: ps, c :: cs => if p = c then dropMatched ps cs else none

/-- Go strings.HasPrefix. -/
def hasPre (pat s : List Char) : Bool :=
  (dropMatched pat s).isSome

/-- Go strings.TrimPrefix: removes pat when present, otherwise returns the
string unchanged. -/
def trimPre (pat s : List Char) : List Char :=
  match dropMatched pat s with
  | some rest => rest
  | none => s

/-- Scheme stripping from src/main.go line 151: first TrimPrefix of
a leading http scheme, then TrimPrefix of a leading socks5 scheme, applied
in that order to whatever the first trim produced. -/
def stripScheme (proxy : List Char) : List Char :=
  trimPre ("socks5://".data) (trimPre ("http://".data) proxy)

/-- Port rule from src/main.go lines 161-164: Atoi must succeed and the
value must lie in [1, 65535]. -/
def portOk (port : List Char) : Bool :=
  match atoi port with
  | some n => decide (1 ≤ n ∧ n ≤ 65535)
  | none => false

/-- The purely structural part of validateProxy (src/main.go lines
150-164): after scheme stripping, the string must split on a colon into
exactly two parts, the first a valid dotted quad, the second a valid
port. -/
def structOnly (proxy : List Char) : Bool :=
  match splitOnChar ':' (stripScheme proxy) with
  | [ip, port] => isValidIP ip && portOk port
  | _ => false

/-- validateProxy from src/main.go lines 150-187.  The two effects the Go
code has beyond pure computation are abstracted as oracles: parseOk models
whether net/url Parse succeeds on the full string, and net models the
HTTP GET through the candidate proxy (none is a transport error, some st
is a response with status st).  The second component of the result records
whether the network was accessed at all. -/
def validateProxy (parseOk : List Char → Bool) (net : List Char → Option Nat)
    (proxy : List Char) : Bool × Bool :=
  match splitOnChar ':' (stripScheme proxy) with
  | [ip, port] =>
    if isValidIP ip then
      match atoi port with
      | some portNum =>
        if portNum < 1 ∨ 65535 < portNum then (false, false)
        else if parseOk proxy then
          match net proxy with
          | none => (false, true)
          | some st => (decide (st = 200), true)
        else (false, false)
      | none => (false, false)
    else (false, false)
  | _ => (false, false)

/-- C3: whenever the structural check fails (wrong number of colon parts,
bad dotted quad, bad port) or the URL parse fails, validateProxy returns
false and never touches the network, for every possible parse oracle and
network oracle. -/
theorem validateProxy_no_network (parseOk : List Char → Bool)
    (net : List Char → Option Nat) (proxy : List Char)
    (h : (structOnly proxy && parseOk proxy) = false) :
    validateProxy parseOk net proxy = (false, false) := by
  unfold structOnly at h
  unfold validateProxy
  cases hsplit : splitOnChar ':' (stripScheme proxy) with
  | nil => rfl
  | cons ip tl =>
    cases tl with
    | nil => rfl
    | cons port tl2 =>
      cases tl2 with
      | cons x tl3 => rfl
      | nil =>
        rw [hsplit] at h
        have h2 : ((isValidIP ip && portOk port) && parseOk proxy) = false := h
        cases hip : isValidIP ip with
        | false => simp [hip]
        | true =>
          simp only [hip, if_true]
          cases hat : atoi port with
          | none => rfl
          | some n =>
            rw [hip] at h2
            simp only [portOk, hat, Bool.true_and] at h2
            by_cases hrange : n < 1 ∨ 65535 < n
            · simp [hrange]
            · have h1 : 1 ≤ n ∧ n ≤ 65535 := by omega
              simp only [decide_eq_true h1, Bool.true_and] at h2
              simp [hrange, h2]

/-- Witness for C3 at a concrete malformed input (no port at all): the
structural check fails and validateProxy reports false with no network
access, even against oracles that would always succeed. -/
theorem validateProxy_no_network_witness :
    (structOnly ("http://1.2.3.4".data) &&
      (fun _ => true) ("http://1.2.3.4".data)) = false ∧
    validateProxy (fun _ => true) (fun _ => some 200) ("http://1.2.3.4".data) =
      (false, false) :=
  ⟨by decide, validateProxy_no_network _ _ _ (by decide)⟩

theorem dropMatched_append (pat rest : List Char) :
    dropMatched pat (pat ++ rest) = some rest := by
  induction pat with
  | nil => rfl
  | cons p ps ih => simp [dropMatched, ih]

theorem trimPre_append (pat rest : List Char) :
    trimPre pat (pat ++ rest) = rest := by
  unfold trimPre
  rw [dropMatched_append]

theorem trimPre_no (pat s : List Char) (h : hasPre pat s = false) :
    trimPre pat s = s := by
  unfold hasPre at h
  unfold trimPre
  cases hd : dropMatched pat s with
  | some r => rw [hd] at h; simp at h
  | none => rfl

/-- C9: validateProxy strips an http scheme, then a socks5 scheme, in that
order: a single http-scheme address whose remainder does not itself start
with a socks5 scheme has exactly that scheme removed, a single
socks5-scheme address has exactly that scheme removed, and an address
carrying both (http outside, socks5 inside) has both removed, after which
it passes the structural check. -/
theorem stripScheme_double (rest : List Char) (hs : hasPre ("socks5://".data) rest = false) :
    stripScheme (("http://".data) ++ rest) = rest ∧
    stripScheme (("socks5://".data) ++ rest) = rest ∧
    stripScheme ("http://socks5://1.2.3.4:80".data) = ("1.2.3.4:80".data) ∧
    structOnly ("http://socks5://1.2.3.4:80".data) = true := by
  refine ⟨?_, ?_, by decide, by decide⟩
  · show trimPre ("socks5://".data) (trimPre ("http://".data) (("http://".data) ++ rest)) = rest
    rw [trimPre_append, trimPre_no ("socks5://".data) rest hs]
  · show trimPre ("socks5://".data) (trimPre ("http://".data) (("socks5://".data) ++ rest)) = rest
    rw [trimPre_no ("http://".data) (("socks5://".data) ++ rest) rfl, trimPre_append]

/-- Witness for C9 at a concrete remainder. -/
theorem stripScheme_double_witness :
    hasPre ("socks5://".data) ("1.2.3.4:80".data) = false ∧
    stripScheme (("http://".data) ++ ("1.2.3.4:80".data)) = ("1.2.3.4:80".data) :=
  ⟨by decide, (stripScheme_double ("1.2.3.4:80".data) (by decide)).1⟩

/-- Go strings.Contains: pat occurs somewhere in s (the empty pattern is
always contained). -/
def containsTok : List Char → List Char → Bool
  | [], pat => pat.isEmpty
  | c :: cs, pat => hasPre pat (c :: cs) || containsTok cs pat

/-- Fuelled worker for Go strings.ReplaceAll with an empty replacement:
scans left to right, removing each leftmost non-overlapping occurrence of
pat and continuing after it, never rescanning text it already produced.
Each step consumes at least one input character and one unit of fuel, so
fuel equal to the input length (as supplied by replaceAll below) is always
enough and the zero-fuel branch is never reached from replaceAll. -/
def replAux : Nat → List Char → List Char → List Char
  | _, _, [] => []
  | 0, _, s => s
  | fuel + 1, pat, c :: cs =>
    if pat.isEmpty then c :: cs
    else
      match dropMatched pat (c :: cs) with
      | some rest => replAux fuel pat rest
      | none => c :: replAux fuel pat cs

/-- Go strings.ReplaceAll(s, pat, "") (src/main.go lines 129-132 use it
with the four noise tokens). -/
def replaceAll (pat s : List Char) : List Char :=
  replAux s.length pat s

/-- Membership in the regexp character class of digits and dots. -/
def isDigitDot (c : Char) : Bool :=
  isDigitCh c || decide (c = '.')

/-- Accumulator worker collecting the maximal runs of digit-dot
characters, in order of appearance; acc holds the reversed current run. -/
def runsAux : List Char → List Char → List (List Char)
  | [], acc => if acc.isEmpty then [] else [acc.reverse]
  | c :: cs, acc =>
    if isDigitDot c then runsAux cs (c :: acc)
    else if acc.isEmpty then runsAux cs []
    else acc.reverse :: runsAux cs []

/-- Go regexp FindAllString for the digit-dot class with count -1: all
maximal runs of digits and dots, leftmost first. -/
def digitRuns (s : List Char) : List (List Char) :=
  runsAux s []

/-- Go strings.Join with the empty separator. -/
def joinL : List (List Char) → List Char
  | [] => []
  | l :: ls => l ++ joinL ls

/-- The sixth-bit value of one base64 character of the standard
alphabet. -/
def b64Val (c : Char) : Option Nat :=
  if 65 ≤ c.toNat ∧ c.toNat ≤ 90 then some (c.toNat - 65)
  else if 97 ≤ c.toNat ∧ c.toNat ≤ 122 then some (c.toNat - 97 + 26)
  else if 48 ≤ c.toNat ∧ c.toNat ≤ 57 then some (c.toNat - 48 + 52)
  else if c = '+' then some 62
  else if c = '/' then some 63
  else none

/-- Newline skipping used by the Go base64 decoder around padding. -/
def skipNL : List Char → List Char
  | [] => []
  | c :: cs => if c = '\n' ∨ c = '\r' then skipNL cs else c :: cs

/-- The three output bytes of a full base64 quantum. -/
def quadBytes (v0 v1 v2 v3 : Nat) : List Nat :=
  let val := v0 * 262144 + v1 * 4096 + v2 * 64 + v3
  [val / 65536, val / 256 % 256, val % 256]

/-- The two output bytes of a quantum ended by one padding character. -/
def padBytes2 (v0 v1 v2 : Nat) : List Nat :=
  let val := v0 * 262144 + v1 * 4096 + v2 * 64
  [val / 65536, val / 256 % 256]

/-- The single output byte of a quantum ended by double padding. -/
def padByte1 (v0 v1 : Nat) : Nat :=
  (v0 * 262144 + v1 * 4096) / 65536

/-- Worker of the Go encoding/base64 StdEncoding decoder.  vals holds the
six-bit values collected for the current quantum (at most three between
calls).  Newlines are skipped anywhere; a full quantum emits three bytes
and restarts; correct padding ends the decode, with an error flagged when
non-newline input remains after it; any other character, a misplaced
padding character, or a truncated final quantum is an error.  On error the
bytes decoded by the completed quanta (plus the bytes of a padded final
quantum followed by garbage, as in Go) are kept and the flag is false,
exactly like the (n, err) pair that Go DecodeString returns. -/
def decAux : List Nat → List Char → List Nat × Bool
  | vals, [] => if vals.isEmpty then ([], true) else ([], false)
  | vals, c :: rest =>
    match b64Val c with
    | some v =>
      match vals ++ [v] with
      | [v0, v1, v2, v3] =>
        let r := decAux [] rest
        (quadBytes v0 v1 v2 v3 ++ r.1, r.2)
      | other => decAux other rest
    | none =>
      if c = '\n' ∨ c = '\r' then decAux vals rest
      else if c = '=' then
        match vals with
        | [v0, v1] =>
          match skipNL rest with
          | '=' :: rest2 => ([padByte1 v0 v1], (skipNL rest2).isEmpty)
          | _ => ([], false)
        | [v0, v1, v2] => (padBytes2 v0 v1 v2, (skipNL rest).isEmpty)
        | _ => ([], false)
      else ([], false)

/-- Go base64.StdEncoding.DecodeString: the decoded bytes together with a
success flag; on failure the bytes decoded before the error are still
returned, mirroring the Go API. -/
def b64Dec (s : List Char) : List Nat × Bool :=
  decAux [] s

/-- Byte-string conversion for the Go expression string(decoded). -/
def bytesToChars (bs : List Nat) : List Char :=
  bs.map Char.ofNat

/-- One attempt of the Go regexp atob pattern anchored at the head of cs:
the literal atob characters, an opening parenthesis and quote, then at
least one non-quote character, then a closing quote immediately followed
by a closing parenthesis.  Returns the captured payload. -/
def atobAt (cs : List Char) : Option (List Char) :=
  match cs with
  | 'a' :: 't' :: 'o' :: 'b' :: '(' :: '\"' :: rest =>
    let payload := rest.takeWhile (fun c => c != '\"')
    if payload.isEmpty then none
    else
      match rest.dropWhile (fun c => c != '\"') with
      | '\"' :: ')' :: _ => some payload
      | _ => none
  | _ => none

/-- Go regexp FindStringSubmatch for the atob pattern: the leftmost
position at which the pattern matches, and its captured payload. -/
def findAtob : List Char → Option (List Char)
  | [] => none
  | c :: cs =>
    match atobAt (c :: cs) with
    | some p => some p
    | none => findAtob cs

/-- Token stripping of src/main.go lines 129-132: the four ReplaceAll
calls in source order, document.write first, then repeat, then substring,
then concat. -/
def stripTokens (js : List Char) : List Char :=
  replaceAll ("concat".data)
    (replaceAll ("substring".data)
      (replaceAll ("repeat".data)
        (replaceAll ("document.write".data) js)))

/-- deobfuscateIP from src/main.go lines 120-135: if the text contains the
atob token and the regexp matches, return the base64 decode of the payload
with the decode error discarded; otherwise strip the four noise tokens and
join all maximal digit-dot runs of the residue. -/
def deobfuscateIP (js : List Char) : List Char :=
  if containsTok js ("atob".data) = true then
    match findAtob js with
    | some payload => bytesToChars (b64Dec payload).1
    | none => joinL (digitRuns (stripTokens js))
  else joinL (digitRuns (stripTokens js))

/-- C4: when the text contains the atob token and the regexp pattern
matches with a payload that is valid base64, deobfuscateIP returns exactly
the base64 decoding of that payload. -/
theorem deobfuscateIP_atob_decodes (js payload : List Char)
    (h1 : containsTok js ("atob".data) = true)
    (h2 : findAtob js = some payload)
    (_h3 : (b64Dec payload).2 = true) :
    deobfuscateIP js = bytesToChars (b64Dec payload).1 := by
  simp [deobfuscateIP, h1, h2]

/-- Witness for C4: the payload is the base64 encoding of a literal
address, and deobfuscateIP returns that literal verbatim. -/
theorem deobfuscateIP_atob_decodes_witness :
    containsTok ("atob(\"MS4yLjMuNDo4MDgw\")".data) ("atob".data) = true ∧
    findAtob ("atob(\"MS4yLjMuNDo4MDgw\")".data) = some ("MS4yLjMuNDo4MDgw".data) ∧
    (b64Dec ("MS4yLjMuNDo4MDgw".data)).2 = true ∧
    deobfuscateIP ("atob(\"MS4yLjMuNDo4MDgw\")".data) = ("1.2.3.4:8080".data) := by
  refine ⟨by decide, by decide, by decide, ?_⟩
  have h := deobfuscateIP_atob_decodes ("atob(\"MS4yLjMuNDo4MDgw\")".data)
    ("MS4yLjMuNDo4MDgw".data) (by decide) (by decide) (by decide)
  rw [h]
  decide

/-- C10: when the atob pattern matches but the payload is not valid
base64, deobfuscateIP still returns the bytes decoded before the error
(possibly none), and does not fall back to the token-stripping branch. -/
theorem deobfuscateIP_atob_invalid (js payload : List Char)
    (h1 : containsTok js ("atob".data) = true)
    (h2 : findAtob js = some payload)
    (_h3 : (b64Dec payload).2 = false) :
    deobfuscateIP js = bytesToChars (b64Dec payload).1 := by
  simp [deobfuscateIP, h1, h2]

/-- Witness for C10: the payload decodes to one full quantum before
hitting an invalid character, and deobfuscateIP returns exactly those
partial bytes. -/
theorem deobfuscateIP_atob_invalid_witness :
    containsTok ("atob(\"MS4y!a\")".data) ("atob".data) = true ∧
    findAtob ("atob(\"MS4y!a\")".data) = some ("MS4y!a".data) ∧
    (b64Dec ("MS4y!a".data)).2 = false ∧
    deobfuscateIP ("atob(\"MS4y!a\")".data) = ("1.2".data) := by
  refine ⟨by decide, by decide, by decide, ?_⟩
  have h := deobfuscateIP_atob_invalid ("atob(\"MS4y!a\")".data)
    ("MS4y!a".data) (by decide) (by decide) (by decide)
  rw [h]
  decide

theorem joinL_runsAux (s : List Char) :
    ∀ acc, joinL (runsAux s acc) = acc.reverse ++ s.filter isDigitDot := by
  induction s with
  | nil => intro acc; cases acc <;> simp [runsAux, joinL]
  | cons c cs ih =>
    intro acc
    by_cases hc : isDigitDot c
    · simp only [runsAux, hc, if_true]
      rw [ih]
      simp [List.filter_cons, hc, List.reverse_cons, List.append_assoc]
    · simp only [runsAux]
      rw [if_neg hc]
      cases acc with
      | nil =>
        rw [if_pos (show ([] : List Char).isEmpty = true from rfl), ih]
        simp [List.filter_cons, hc]
      | cons a as =>
        rw [if_neg (by simp)]
        simp only [joinL]
        rw [ih]
        simp [List.filter_cons, hc]

theorem joinL_digitRuns (s : List Char) :
    joinL (digitRuns s) = s.filter isDigitDot := by
  have h := joinL_runsAux s []
  simpa [digitRuns] using h

/-- C5 (amended): on the non-atob path, deobfuscateIP applies the four
ReplaceAll passes in the fixed source order (document.write, repeat,
substring, concat) and returns the concatenation, in order of appearance,
of all maximal digit-dot runs of the residue, which equals the residue
filtered to digit and dot characters; the result of the passes is not
independent of their order, see the counterexample. -/
theorem deobfuscateIP_strip_amended (js : List Char)
    (h : containsTok js ("atob".data) = false ∨ findAtob js = none) :
    deobfuscateIP js = joinL (digitRuns (stripTokens js)) ∧
    joinL (digitRuns (stripTokens js)) = (stripTokens js).filter isDigitDot := by
  constructor
  · cases h with
    | inl h1 => simp [deobfuscateIP, h1]
    | inr h2 =>
      by_cases h1 : containsTok js ("atob".data) = true
      · simp [deobfuscateIP, h1, h2]
      · simp [deobfuscateIP, h1]
  · exact joinL_digitRuns _

/-- Witness for C5 at a concrete obfuscated input. -/
theorem deobfuscateIP_strip_amended_witness :
    containsTok ("12repeat34".data) ("atob".data) = false ∧
    (deobfuscateIP ("12repeat34".data) = joinL (digitRuns (stripTokens ("12repeat34".data))) ∧
      joinL (digitRuns (stripTokens ("12repeat34".data))) =
        (stripTokens ("12repeat34".data)).filter isDigitDot) :=
  ⟨by decide, deobfuscateIP_strip_amended ("12repeat34".data) (Or.inl (by decide))⟩

/-- C5 counterexample: removal order matters.  On the input text
docurepeatment.write, the source order (document.write removed first, then
repeat) leaves the residue document.write, whose digit-dot content is a
single dot, while removing repeat first and document.write second leaves
nothing; moreover the residue of the source order still contains a
document.write occurrence, so the passes do not remove all occurrences. -/
theorem deobfuscateIP_order_cex :
    deobfuscateIP ("docurepeatment.write".data) = ['.'] ∧
    joinL (digitRuns (replaceAll ("concat".data) (replaceAll ("substring".data)
      (replaceAll ("document.write".data) (replaceAll ("repeat".data)
        ("docurepeatment.write".data)))))) = [] ∧
    containsTok (stripTokens ("docurepeatment.write".data)) ("document.write".data) = true := by
  decide

/-- ProxyPool from src/main.go lines 36-40: the ordered list of validated
addresses plus the rotation cursor.  The Go mutex only serialises access
and has no sequential meaning, so it is not part of the state. -/
structure ProxyPool where
  proxies : List (List Char)
  current : Nat
deriving DecidableEq

/-- ProxyPool.Add from src/main.go lines 42-46: append under the lock. -/
def ProxyPool.Add (p : ProxyPool) (proxy : List Char) : ProxyPool :=
  { p with proxies := p.proxies ++ [proxy] }

/-- ProxyPool.GetNext from src/main.go lines 48-56: on an empty list
return the empty string and false without touching the state; otherwise
advance the cursor by one modulo the length and return the entry at the
new cursor with true. -/
def ProxyPool.GetNext (p : ProxyPool) : (List Char × Bool) × ProxyPool :=
  if p.proxies.length = 0 then (([], false), p)
  else
    let c := (p.current + 1) % p.proxies.length
    ((p.proxies.getD c [], true), { p with current := c })

/-- C8: GetNext on an empty pool returns the empty string and false and
leaves the pool unchanged; on a pool of length n it moves the cursor to
(cursor + 1) mod n and returns the address stored at that position
together with true, leaving the list itself unchanged. -/
theorem getNext_spec (p : ProxyPool) :
    (p.proxies.length = 0 → p.GetNext = (([], false), p)) ∧
    (0 < p.proxies.length →
      p.GetNext =
        ((p.proxies.getD ((p.current + 1) % p.proxies.length) [], true),
          { p with current := (p.current + 1) % p.proxies.length })) := by
  constructor
  · intro h
    simp [ProxyPool.GetNext, h]
  · intro h
    rw [ProxyPool.GetNext, if_neg (by omega)]

/-- Witness for C8 on an empty pool and on a two-element pool. -/
theorem getNext_spec_witness :
    ProxyPool.GetNext { proxies := [], current := 7 } = (([], false), { proxies := [], current := 7 }) ∧
    ProxyPool.GetNext { proxies := [("ab".data), ("cd".data)], current := 0 } =
      ((("cd".data), true), { proxies := [("ab".data), ("cd".data)], current := 1 }) := by
  constructor
  · exact (getNext_spec _).1 rfl
  · have h := (getNext_spec { proxies := [("ab".data), ("cd".data)], current := 0 }).2 (by decide)
    rw [h]
    decide

/-- Go strings.ToLower, restricted to the ASCII range that the protocol
labels of the scraped tables use. -/
def toLowerGo (s : List Char) : List Char :=
  s.map fun c => if 65 ≤ c.toNat ∧ c.toNat ≤ 90 then Char.ofNat (c.toNat + 32) else c

/-- Row handling of the tabular extraction strategy, src/main.go lines
93-106: the three arguments are the texts of columns 0, 1 and 4 of one
table row; the result is the candidate sent to the channel, if any. -/
def scrapeRow (ip port protocol : List Char) : Option (List Char) :=
  if ip ≠ [] ∧ port ≠ [] then
    let proxy := ip ++ ':' :: port
    if containsTok (toLowerGo protocol) ("socks5".data) then some (("socks5://".data) ++ proxy)
    else some (("http://".data) ++ proxy)
  else none

/-- C7: a table row emits a candidate exactly when both the IP text
(column 0) and the port text (column 1) are non-empty; the candidate is
the socks5 scheme applied to ip colon port when the lowered protocol text
(column 4) contains the socks5 token, and the http scheme otherwise. -/
theorem scrapeRow_spec (ip port protocol : List Char) :
    ((scrapeRow ip port protocol).isSome = true ↔ (ip ≠ [] ∧ port ≠ [])) ∧
    (ip ≠ [] → port ≠ [] → containsTok (toLowerGo protocol) ("socks5".data) = true →
      scrapeRow ip port protocol = some (("socks5://".data) ++ ip ++ ':' :: port)) ∧
    (ip ≠ [] → port ≠ [] → containsTok (toLowerGo protocol) ("socks5".data) = false →
      scrapeRow ip port protocol = some (("http://".data) ++ ip ++ ':' :: port)) := by
  refine ⟨?_, ?_, ?_⟩
  · by_cases h : ip ≠ [] ∧ port ≠ []
    · simp only [scrapeRow, if_pos h]
      by_cases hs : containsTok (toLowerGo protocol) ("socks5".data) <;> simp [hs, h]
    · simp [scrapeRow, if_neg h, h]
  · intro hip hport hs
    simp [scrapeRow, hip, hport, hs]
  · intro hip hport hs
    simp [scrapeRow, hip, hport, hs]

/-- Witness for C7: a socks5-labelled row (upper case label), an
http-labelled row, and a row with an empty port. -/
theorem scrapeRow_spec_witness :
    scrapeRow ("1.2.3.4".data) ("80".data) ("SOCKS5".data) =
      some (("socks5://".data) ++ ("1.2.3.4".data) ++ ':' :: ("80".data)) ∧
    scrapeRow ("1.2.3.4".data) ("80".data) ("HTTPS".data) =
      some (("http://".data) ++ ("1.2.3.4".data) ++ ':' :: ("80".data)) ∧
    scrapeRow ("1.2.3.4".data) [] ("HTTP".data) = none := by
  refine ⟨?_, ?_, ?_⟩
  · exact (scrapeRow_spec _ _ _).2.1 (by decide) (by decide) (by decide)
  · exact (scrapeRow_spec _ _ _).2.2 (by decide) (by decide) (by decide)
  · have h := (scrapeRow_spec ("1.2.3.4".data) [] ("HTTP".data)).1
    cases ho : scrapeRow ("1.2.3.4".data) [] ("HTTP".data) with
    | none => rfl
    | some v =>
      rw [ho] at h
      simp at h

/-- saveProxies from src/main.go lines 189-201.  The file system is
abstracted by the outcome of the os.Create call; on success the value
carries the lines that the loop writes (each address followed by a
newline), on failure the error is returned unchanged. -/
def saveProxies (createRes : Except (List Char) Unit) (proxies : List (List Char)) :
    Except (List Char) (List (List Char)) :=
  match createRes with
  | .error e => .error e
  | .ok _ => .ok (proxies.map fun p => p ++ ['\n'])

/-- Tail of main, src/main.go lines 250-255: the collected valid proxies
are handed to saveProxies, whose result is discarded (line 254 ignores the
returned error, just as line 251 ignores the home-directory error), and
main then prints the total and returns; the run therefore always ends in
the ok outcome carrying the reported count. -/
def mainOutcome (createRes : Except (List Char) Unit) (validProxies : List (List Char)) :
    Except (List Char) Nat :=
  let _ := saveProxies createRes validProxies
  Except.ok validProxies.length

/-- C1 counterexample: when creating the output file fails, saveProxies
does return the error, but main discards it and completes normally, so the
failure never reaches the top level as a hard error. -/
theorem saveProxies_not_surfaced_cex :
    saveProxies (Except.error ("permission denied".data)) [("http://1.2.3.4:80".data)] =
      Except.error ("permission denied".data) ∧
    mainOutcome (Except.error ("permission denied".data)) [("http://1.2.3.4:80".data)] =
      Except.ok 1 :=
  ⟨rfl, rfl⟩

/-- C1 (amended): saveProxies propagates any creation failure to its
caller, but main ignores the value saveProxies returns, so no failure
class, output-file creation included, is surfaced as a hard error and
every run completes normally with the count of collected proxies. -/
theorem saveProxies_error_propagation (e : List Char)
    (createRes : Except (List Char) Unit) (ps : List (List Char)) :
    saveProxies (Except.error e) ps = Except.error e ∧
    mainOutcome createRes ps = Except.ok ps.length :=
  ⟨rfl, rfl⟩

/-- The fixed list of source pages, src/main.go lines 20-34; main starts
one producer goroutine per entry. -/
def proxySites : List (List Char) :=
  [("https://free-proxy-list.net/".data),
   ("https://www.sslproxies.org/".data),
   ("https://www.us-proxy.org/".data),
   ("https://www.socks-proxy.net/".data),
   ("https://www.proxynova.com/proxy-server-list/".data),
   ("https://hidemy.name/en/proxy-list/".data),
   ("https://spys.one/en/free-proxy-list/".data),
   ("https://www.proxy-list.download/HTTP".data),
   ("https://www.proxy-list.download/SOCKS5".data),
   ("https://proxylist.geonode.com/free-proxy-list".data),
   ("https://www.openproxy.space/list/".data),
   ("https://proxydb.net/".data),
   ("https://www.proxyscrape.com".data)]

/-- Validator pool size, src/main.go line 216. -/
def numWorkers : Nat := 20

/-- Capacity of the two buffered channels, src/main.go lines 206-207. -/
def chanCap : Nat := 1000

/-- Abstract state of the pipeline of main (src/main.go lines 203-248):
how many producer goroutines have not yet returned (the producer
wait-group counter), whether the candidate channel has been closed and how
many candidates it buffers, the same for the validator pool and the
results channel. -/
structure PipeState where
  prodRun : Nat
  candClosed : Bool
  candQ : Nat
  valRun : Nat
  resClosed : Bool
  resQ : Nat
deriving DecidableEq

/-- Event labels of the pipeline transition system. -/
inductive PLabel where
  | pSend
  | pDone
  | closeCand
  | vForward
  | vDrop
  | vDone
  | closeRes
  | collect
deriving DecidableEq

/-- Initial pipeline state: all producers and validators running, both
channels open and empty. -/
def pipeInit : PipeState :=
  { prodRun := proxySites.length, candClosed := false, candQ := 0,
    valRun := numWorkers, resClosed := false, resQ := 0 }

/-- One step of the pipeline, one constructor per atomic event of
src/main.go lines 203-248.  A running producer may push a candidate
(line 101/103/114) or return (the deferred wg.Done of line 59); the first
supervisory goroutine closes the candidate channel only after the producer
wait-group reaches zero (lines 232-235); a running validator consumes a
buffered candidate and forwards it (line 225) or drops it; a validator
returns only once the candidate channel is closed and drained, which is
when its range loop ends (line 223); the second supervisory goroutine
closes the results channel only after the validator wait-group reaches
zero (lines 237-240); the collector consumes buffered results (line 244).
Sends deliberately carry no guard on the closed flags: that a send can
never race a close is exactly what the theorem below proves. -/
inductive PStep : PipeState → PLabel → PipeState → Prop where
  | pSend (s : PipeState) (h : 0 < s.prodRun) (hq : s.candQ < chanCap) :
      PStep s PLabel.pSend { s with candQ := s.candQ + 1 }
  | pDone (s : PipeState) (h : 0 < s.prodRun) :
      PStep s PLabel.pDone { s with prodRun := s.prodRun - 1 }
  | closeCand (s : PipeState) (h : s.prodRun = 0) (hc : s.candClosed = false) :
      PStep s PLabel.closeCand { s with candClosed := true }
  | vForward (s : PipeState) (h : 0 < s.valRun) (hq : 0 < s.candQ) (hr : s.resQ < chanCap) :
      PStep s PLabel.vForward { s with candQ := s.candQ - 1, resQ := s.resQ + 1 }
  | vDrop (s : PipeState) (h : 0 < s.valRun) (hq : 0 < s.candQ) :
      PStep s PLabel.vDrop { s with candQ := s.candQ - 1 }
  | vDone (s : PipeState) (h : 0 < s.valRun) (hc : s.candClosed = true) (hq : s.candQ = 0) :
      PStep s PLabel.vDone { s with valRun := s.valRun - 1 }
  | closeRes (s : PipeState) (h : s.valRun = 0) (hc : s.resClosed = false) :
      PStep s PLabel.closeRes { s with resClosed := true }
  | collect (s : PipeState) (h : 0 < s.resQ) :
      PStep s PLabel.collect { s with resQ := s.resQ - 1 }

/-- Finite executions of the pipeline from the initial state, recording
the labels of the steps taken. -/
inductive PTrace : List PLabel → PipeState → Prop where
  | nil : PTrace [] pipeInit
  | cons (ls : List PLabel) (s : PipeState) (l : PLabel) (s' : PipeState) :
      PTrace ls s → PStep s l s' → PTrace (ls ++ [l]) s'

/-- Number of occurrences of one label in a trace. -/
def countL (a : PLabel) : List PLabel → Nat
  | [] => 0
  | b :: bs => (if b = a then 1 else 0) + countL a bs

theorem countL_append (a : PLabel) (xs ys : List PLabel) :
    countL a (xs ++ ys) = countL a xs + countL a ys := by
  induction xs with
  | nil => simp [countL]
  | cons b bs ih => simp [countL, ih]; omega

/-- Inductive invariant of the pipeline: once the candidate channel is
closed all producers have returned; a validator pool below full strength
means the candidate channel is already closed (a validator can only leave
after the close); once the results channel is closed the whole validator
pool has drained and the candidate channel closed first. -/
def PipeInv (s : PipeState) : Prop :=
  (s.candClosed = true → s.prodRun = 0) ∧
  (s.valRun ≠ numWorkers → s.candClosed = true) ∧
  (s.resClosed = true → s.candClosed = true ∧ s.valRun = 0)

theorem pipeInv_step {s : PipeState} {l : PLabel} {s' : PipeState}
    (hinv : PipeInv s) (hstep : PStep s l s') : PipeInv s' := by
  obtain ⟨h1, h2, h3⟩ := hinv
  cases hstep with
  | pSend h hq => exact ⟨h1, h2, h3⟩
  | pDone h =>
    refine ⟨fun hc => ?_, h2, h3⟩
    have := h1 hc
    omega
  | closeCand h hc =>
    refine ⟨fun _ => h, fun _ => rfl, fun hr => ⟨rfl, (h3 hr).2⟩⟩
  | vForward h hq hr => exact ⟨h1, h2, h3⟩
  | vDrop h hq => exact ⟨h1, h2, h3⟩
  | vDone h hc hq =>
    refine ⟨h1, fun _ => hc, fun hr => ?_⟩
    have := (h3 hr).2
    omega
  | closeRes h hc =>
    refine ⟨h1, h2, fun _ => ⟨?_, h⟩⟩
    exact h2 (by rw [h]; decide)
  | collect h => exact ⟨h1, h2, h3⟩

theorem pipeTrace_inv (ls : List PLabel) (s : PipeState) (ht : PTrace ls s) :
    PipeInv s ∧
    countL PLabel.closeCand ls = (if s.candClosed then 1 else 0) ∧
    countL PLabel.closeRes ls = (if s.resClosed then 1 else 0) := by
  induction ht with
  | nil =>
    refine ⟨?_, rfl, rfl⟩
    unfold PipeInv
    refine ⟨fun h => ?_, fun h => ?_, fun h => ?_⟩
    · exact nomatch h
    · exact absurd rfl h
    · exact nomatch h
  | cons ls s l s' ht hstep ih =>
    obtain ⟨hinv, hc1, hc2⟩ := ih
    refine ⟨pipeInv_step hinv hstep, ?_, ?_⟩
    · rw [countL_append, hc1]
      cases hstep with
      | closeCand h hc => rw [hc]; simp [countL]
      | pSend h hq => simp [countL]
      | pDone h => simp [countL]
      | vForward h hq hr => simp [countL]
      | vDrop h hq => simp [countL]
      | vDone h hc hq => simp [countL]
      | closeRes h hc => simp [countL]
      | collect h => simp [countL]
    · rw [countL_append, hc2]
      cases hstep with
      | closeRes h hc => rw [hc]; simp [countL]
      | pSend h hq => simp [countL]
      | pDone h => simp [countL]
      | vForward h hq hr => simp [countL]
      | vDrop h hq => simp [countL]
      | vDone h hc hq => simp [countL]
      | closeCand h hc => simp [countL]
      | collect h => simp [countL]

/-- C2: along every execution of the pipeline, the results channel is
never closed before the candidate channel (whenever the results channel is
closed, the candidate channel already is); the candidate channel is never
closed while a producer is still running and hence may still write to it;
the results channel is never closed while a validator may still write to
it; and each channel is closed at most once, the close events being
enabled only after the corresponding wait-group barrier has fallen to zero
by construction of the step relation. -/
theorem pipeline_shutdown_order (ls : List PLabel) (s : PipeState)
    (ht : PTrace ls s) :
    (s.resClosed = true → s.candClosed = true) ∧
    (0 < s.prodRun → s.candClosed = false) ∧
    (0 < s.valRun → s.resClosed = false) ∧
    countL PLabel.closeCand ls ≤ 1 ∧
    countL PLabel.closeRes ls ≤ 1 := by
  obtain ⟨⟨h1, h2, h3⟩, hc1, hc2⟩ := pipeTrace_inv ls s ht
  refine ⟨fun hr => (h3 hr).1, ?_, ?_, ?_, ?_⟩
  · intro hp
    cases hcc : s.candClosed with
    | false => rfl
    | true => have := h1 hcc; omega
  · intro hv
    cases hrc : s.resClosed with
    | false => rfl
    | true => have := (h3 hrc).2; omega
  · rw [hc1]; split <;> omega
  · rw [hc2]; split <;> omega

/-- Witness for C2 at the initial state reached by the empty trace. -/
theorem pipeline_shutdown_order_witness :
    pipeInit.candClosed = false ∧ pipeInit.resClosed = false ∧
    countL PLabel.closeCand [] ≤ 1 :=
  ⟨(pipeline_shutdown_order [] pipeInit PTrace.nil).2.1 (by decide),
   (pipeline_shutdown_order [] pipeInit PTrace.nil).2.2.1 (by decide),
   (pipeline_shutdown_order [] pipeInit PTrace.nil).2.2.2.1⟩
